import Mathlib

/-!
Verification of the go-lazyhttp library's admission-and-retry core.

This file shallowly embeds the Go sources of the repository:
  * `backoff.go` — the backoff policy family (`noopBackoffFunc`,
    `infiniteBackoff`, `limitedTriesBackoff`, `exponentialBackoff`);
  * the retry loop of `client.Do` (the `errors.go` snapshot, the one with
    a retry orchestrator);
  * the token-bucket rate limiter (`ratelimit` package);
  * `NewClient`'s mutation of the process-global `http.DefaultClient`.

Go's `time.Duration` is `int64` nanoseconds; we model it as `Int`
with an explicit two's-complement wrap `i64` applied at every arithmetic
operation of the source that can overflow.  Randomness (the jitter
function, created once per policy from `rand.Intn(500)*time.Millisecond`)
is modelled as an ambient stream `j : Nat → Int` of successive jitter
values, together with a counter of how many jitter draws a policy has
made; the predicate `JitterOk` records exactly the range `rand.Intn(500)`
milliseconds can produce.  Nondeterministic scheduling (Go `select`) is
modelled by oracle parameters saying which channel fires first.
-/

namespace lazyhttp

/-- One millisecond in nanoseconds (`time.Millisecond`). -/
def millisecond : Int := 1000000

/-- One second in nanoseconds (`time.Second`). -/
def second : Int := 1000000000

/-- One hour in nanoseconds (`time.Hour`). -/
def hour : Int := 3600000000000

/-- Two's-complement wrap-around of Go `int64` arithmetic:
the representative of `x` in `[-2^63, 2^63)`. -/
def i64 (x : Int) : Int :=
  (x + 9223372036854775808) % 18446744073709551616 - 9223372036854775808

/-- The values the jitter closure built in `NewExponentialBackoff` can
return: `time.Duration(rand.Intn(500)) * time.Millisecond`, i.e. a whole
number of milliseconds in `[0ms, 500ms)`. -/
def JitterOk (j : Nat → Int) : Prop :=
  ∀ n, 0 ≤ j n ∧ j n < 500 * millisecond

/-- State of `noopBackoffFunc` (it has no fields). -/
def noopBackoffFunc : Type := Unit

/-- `(b *noopBackoffFunc) Backoff()`: always `(0, false)`. -/
def noopBackoff (b : noopBackoffFunc) : Int × Bool × noopBackoffFunc :=
  (0, false, b)

/-- State of `infiniteBackoff`. -/
structure infiniteBackoff where
  base : Int
deriving DecidableEq

/-- `NewInfiniteBackoff`. -/
def NewInfiniteBackoff (base : Int) : infiniteBackoff :=
  { base := base }

/-- `(b *infiniteBackoff) Backoff()`: always `(base, true)`. -/
def infiniteBackoff.Backoff (b : infiniteBackoff) : Int × Bool × infiniteBackoff :=
  (b.base, true, b)

/-- State of `limitedTriesBackoff`. -/
structure limitedTriesBackoff where
  base : Int
  done : Int
  retries : Int
deriving DecidableEq

/-- `NewLimitedTriesBackoff(base, retries)`. -/
def NewLimitedTriesBackoff (base : Int) (retries : Int) : limitedTriesBackoff :=
  { base := base, done := 0, retries := retries }

/-- `(b *limitedTriesBackoff) Backoff()`:
if `done+1 > retries` return `(0, false)`; otherwise increment `done`
and return `(base, true)`.  The method mutates the receiver, so we
return the updated state. -/
def limitedTriesBackoff.Backoff (b : limitedTriesBackoff) :
    Int × Bool × limitedTriesBackoff :=
  if b.done + 1 > b.retries then
    (0, false, b)
  else
    (b.base, true, { b with done := b.done + 1 })

/-- State of `exponentialBackoff`.  The Go struct additionally stores the
jitter closure; here the jitter stream is ambient and `jcalls` counts how
many draws from it this policy has consumed so far. -/
structure exponentialBackoff where
  base : Int
  done : Int
  max : Int
  retries : Int
  jcalls : Nat
deriving DecidableEq

/-- `NewExponentialBackoff(base, max, retries)`:
panics (`none`) when `base == 0`, otherwise returns the fresh policy. -/
def NewExponentialBackoff (base : Int) (max : Int) (retries : Int) :
    Option exponentialBackoff :=
  if base = 0 then
    none
  else
    some { base := base, done := 0, max := max, retries := retries, jcalls := 0 }

/-- `(b *exponentialBackoff) Backoff()`:
```go
if b.done+1 > b.retries { return 0, false }
var current time.Duration
if b.done == 0 {
    current = b.base + b.jitter()
} else {
    current = (b.base * time.Duration(2<<(b.done-1))) + b.jitter()
}
if current >= b.max { b.done++; return b.max + b.jitter(), true }
b.done++
return current, true
```
`2<<(b.done-1)` is `int` (64-bit) arithmetic, hence `i64 (2 * 2 ^ (done-1))`;
each duration operation wraps in `int64`.  (Go would panic on a negative
shift count; states with `done < 0` are unreachable, every reachable state
has `done ≥ 0`.) -/
def exponentialBackoff.Backoff (j : Nat → Int) (b : exponentialBackoff) :
    Int × Bool × exponentialBackoff :=
  if b.done + 1 > b.retries then
    (0, false, b)
  else
    let current : Int :=
      if b.done = 0 then
        i64 (b.base + j b.jcalls)
      else
        i64 (i64 (b.base * i64 (2 * 2 ^ (b.done - 1).toNat)) + j b.jcalls)
    if current ≥ b.max then
      (i64 (b.max + j (b.jcalls + 1)), true,
        { b with done := b.done + 1, jcalls := b.jcalls + 2 })
    else
      (current, true, { b with done := b.done + 1, jcalls := b.jcalls + 1 })

/-- The raw (pre-jitter) wait the code computes on a call at state `b`:
`base` when `done = 0`, and `base * 2^done` (as wrapped `int64`
arithmetic, since `2<<(done-1) = 2^done`) when `done ≥ 1`. -/
def rawWait (b : exponentialBackoff) : Int :=
  if b.done = 0 then b.base else i64 (b.base * i64 (2 * 2 ^ (b.done - 1).toNat))

/-- The idealized (non-wrapping) raw wait on a call at state `b`:
`base` when `done = 0` and `base * 2^done` when `done ≥ 1`.  Under the
no-overflow bounds below it coincides with the wrapped `rawWait` the
code computes. -/
def rawPow (b : exponentialBackoff) : Int :=
  if b.done = 0 then b.base else b.base * 2 ^ b.done.toNat

/-- The policy built by `NewExponentialBackoff(5*time.Second, 2*time.Second, 5)`
(the configuration of `TestBackoffConsidersMax`). -/
def expB52 : exponentialBackoff :=
  { base := 5 * second, done := 0, max := 2 * second, retries := 5, jcalls := 0 }

/-- The policy built by `NewExponentialBackoff(5*time.Second, 2*time.Hour, 5)`
(the configuration of `TestBackoffIncreases`). -/
def expB6 : exponentialBackoff :=
  { base := 5 * second, done := 0, max := 2 * hour, retries := 5, jcalls := 0 }

/-- State of the exponential policy after `n` successive `Backoff()` calls. -/
def expStateAfter (j : Nat → Int) (b : exponentialBackoff) : Nat → exponentialBackoff
  | 0 => b
  | n + 1 => (exponentialBackoff.Backoff j (expStateAfter j b n)).2.2

/-- Result `(duration, shouldRetry)` of the `(n+1)`-th `Backoff()` call
(0-indexed call `n`). -/
def expCall (j : Nat → Int) (b : exponentialBackoff) (n : Nat) : Int × Bool :=
  ((exponentialBackoff.Backoff j (expStateAfter j b n)).1,
   (exponentialBackoff.Backoff j (expStateAfter j b n)).2.1)

/-- State of the limited-tries policy after `n` successive `Backoff()` calls. -/
def ltbStateAfter (b : limitedTriesBackoff) : Nat → limitedTriesBackoff
  | 0 => b
  | n + 1 => (limitedTriesBackoff.Backoff (ltbStateAfter b n)).2.2

/-- Result `(duration, shouldRetry)` of the `(n+1)`-th `Backoff()` call of
the limited-tries policy (0-indexed call `n`). -/
def ltbCall (b : limitedTriesBackoff) (n : Nat) : Int × Bool :=
  ((limitedTriesBackoff.Backoff (ltbStateAfter b n)).1,
   (limitedTriesBackoff.Backoff (ltbStateAfter b n)).2.1)

/-! ## The retry loop of `client.Do` (errors.go snapshot)

```go
if c.retryPolicy != nil {
    bop := c.newBackoffPolicy()
    for c.retryPolicy(res) {
        var err error
        t, ok := bop.Backoff()
        if !ok {
            return res, fmt.Errorf("error backing off from request: %w", err) // err is nil here
        }
        timer := time.NewTimer(t)
        res, err = func(res *http.Response) (*http.Response, error) {
            for {
                select {
                case <-ctx.Done():
                    return res, fmt.Errorf("request context done")
                case <-timer.C:
                    res, err = c.execute(req)
                    if err != nil {
                        return res, fmt.Errorf("error executing request: %w", err)
                    }
                    timer.Stop()
                    return res, nil
                }
            }
        }(res)
    }
}
// ... post response hooks ...
return res, nil
```
A response pointer is `Option Response` (`none` = `nil`).  The outcome of
the `select` race between `ctx.Done()` and the backoff timer at the `k`-th
wait is the oracle `ctxDone k`; the outcome of `c.execute(req)` at the
`k`-th re-execution is the oracle `exec k` (`none` = transport error, in
which case `execute` returns a `nil` response with a non-nil error).
Note that the closure's error is assigned to the loop-body-local `err`
and never read again: the loop condition only consults
`c.retryPolicy(res)`.  The only `return` of `Do` inside this loop is the
back-off-exhaustion one.  Since the Go loop need not terminate, the
embedding takes a fuel argument and returns `none` when the fuel runs
out before the loop exits. -/

/-- An `*http.Response` as far as the retry loop observes it. -/
structure Response where
  statusCode : Int
deriving DecidableEq

/-- The classified errors that the retry section of `client.Do` can build:
the three `fmt.Errorf` sites of the loop. -/
inductive RetryErr where
  /-- `fmt.Errorf("error backing off from request: %w", err)` with `err == nil`. -/
  | exhausted : RetryErr
  /-- `fmt.Errorf("request context done")`, built inside the wait closure. -/
  | ctxCancelled : RetryErr
  /-- `fmt.Errorf("error executing request: %w", err)`, built inside the wait closure. -/
  | execError : RetryErr
deriving DecidableEq

/-- The anonymous wait closure: race `ctx.Done()` against the timer.
If the context wins, it returns the response it was passed unchanged
together with the `"request context done"` error; otherwise it
re-executes the request, yielding either a fresh response or a `nil`
response with an execution error. -/
def retryWait (ctxDone : Bool) (execResult : Option Response)
    (res : Option Response) : Option Response × Option RetryErr :=
  if ctxDone then
    (res, some RetryErr.ctxCancelled)
  else
    match execResult with
    | none => (none, some RetryErr.execError)
    | some r => (some r, none)

/-- The retry loop of `client.Do`, with `fuel` bounding the number of
iterations we unfold.  Returns `none` if the loop has not exited within
`fuel` iterations, and otherwise `some (res, err)` where `(res, err)` is
what the retry section of `Do` produces: either the in-loop exhaustion
return (`err = some .exhausted`) or normal loop exit (`err = none`, after
which `Do` runs the post-response hooks and returns `(res, nil)`).
The closure's error is bound and dropped, exactly as in the source. -/
def retryLoop {β : Type} (rp : Option Response → Bool)
    (st : β → Int × Bool × β) (ctxDone : Nat → Bool)
    (exec : Nat → Option Response) :
    Nat → β → Option Response → Nat →
    Option (Option Response × Option RetryErr)
  | 0, _, _, _ => none
  | fuel + 1, bop, res, k =>
    if rp res then
      let r := st bop
      if r.2.1 then
        let w := retryWait (ctxDone k) (exec k) res
        retryLoop rp st ctxDone exec fuel r.2.2 w.1 (k + 1)
      else
        some (res, some RetryErr.exhausted)
    else
      some (res, none)

/-- The retry policy used by the repository's retry test
(`TestRetryHookMakeRetry`): retry exactly on HTTP 503, guarded against a
`nil` response. -/
def rp503 : Option Response → Bool
  | some r => r.statusCode == 503
  | none => false

end lazyhttp

namespace ratelimit

/-! ## The token-bucket rate limiter (`ratelimit` package)

```go
func NewTokenBucketRateLimiter(t time.Ticker, maxTokens int, timeout time.Duration) *tokenBucketRateLimiter {
    if timeout == 0 { timeout = time.Second * 30 }
    lim := &tokenBucketRateLimiter{ ..., bucket: make(chan struct{}, maxTokens) }
    go func() {
        for i := 0; i < maxTokens; i++ { lim.bucket <- struct{}{} } // prefill
        for range t.C {
            lim.mtx.Lock()
            for i := 0; i < maxTokens-len(lim.bucket); i++ { lim.bucket <- struct{}{} }
            lim.mtx.Unlock()
        }
    }()
    return lim
}
```
The bucket is a buffered channel of capacity `maxTokens`; its observable
state is the number of buffered tokens, a natural number (`len` of a
channel).  The prefill loop runs to completion before any tick is
handled, leaving `maxTokens` tokens buffered.  A tick tops the bucket up
by `maxTokens - len(bucket)` sends under the mutex. -/

/-- Observable state of `tokenBucketRateLimiter`: the effective default
timeout, the channel capacity (`maxTokens`), and the current number of
buffered tokens (`len(lim.bucket)`). -/
structure tokenBucketRateLimiter where
  timeout : Int
  capacity : Nat
  bucket : Nat
deriving DecidableEq

/-- `NewTokenBucketRateLimiter` after its prefill goroutine has run:
a zero timeout is replaced by 30s, and the bucket holds `maxTokens`
tokens. -/
def NewTokenBucketRateLimiter (maxTokens : Nat) (timeout : Int) :
    tokenBucketRateLimiter :=
  { timeout := if timeout = 0 then lazyhttp.second * 30 else timeout,
    capacity := maxTokens,
    bucket := maxTokens }

/-- One tick of the refill goroutine: send `maxTokens - len(bucket)`
tokens (under the mutex). -/
def refillTick (l : tokenBucketRateLimiter) : tokenBucketRateLimiter :=
  { l with bucket := l.bucket + (l.capacity - l.bucket) }

/-- A successful receive `<-l.bucket`: one token leaves the bucket. -/
def takeToken (l : tokenBucketRateLimiter) : tokenBucketRateLimiter :=
  { l with bucket := l.bucket - 1 }

/-- The events that change the bucket after construction: a consumer
receiving a token inside `Wait`, or the refill goroutine handling a tick. -/
inductive BucketStep where
  | acquire : BucketStep
  | refill : BucketStep
deriving DecidableEq

/-- Apply one bucket event. -/
def bucketStep (l : tokenBucketRateLimiter) : BucketStep → tokenBucketRateLimiter
  | BucketStep.acquire => takeToken l
  | BucketStep.refill => refillTick l

/-- Bucket state after a sequence of events. -/
def runBucket (l : tokenBucketRateLimiter) (steps : List BucketStep) :
    tokenBucketRateLimiter :=
  steps.foldl bucketStep l

/-- `ctx.Err()` once a context is done: cancelled or deadline exceeded. -/
inductive CtxCause where
  | cancelled : CtxCause
  | deadlineExceeded : CtxCause
deriving DecidableEq

/-- `NoTokenError` wraps the cancellation cause (`ctx.Err()`). -/
structure NoTokenError where
  Err : CtxCause
deriving DecidableEq

/-- The deadline governing the `select` in `Wait`: the caller's deadline
when the context carries one, otherwise the limiter wraps the context
with its own `l.timeout` (`context.WithTimeout(ctx, l.timeout)`). -/
def effectiveDeadline (l : tokenBucketRateLimiter) (ctxDeadline : Option Int) :
    Option Int :=
  if ctxDeadline.isNone then some l.timeout else ctxDeadline

/-- `(l *tokenBucketRateLimiter) Wait(ctx)`:
```go
_, ok := ctx.Deadline()
if !ok { ctx, cancel = context.WithTimeout(ctx, l.timeout); defer cancel() }
select {
case <-ctx.Done():  return NoTokenError{Err: ctx.Err()}
case <-l.bucket:    return nil
}
```
The `select` race is decided by the environment: `tokenFirst` says a
token receive fired before the (possibly defaulted) deadline; `cause` is
what `ctx.Err()` reports when the context wins.  Returns the call's
result together with the limiter state after the call. -/
def tokenBucketRateLimiter.Wait (l : tokenBucketRateLimiter)
    (ctxDeadline : Option Int) (tokenFirst : Bool) (cause : CtxCause) :
    Except NoTokenError Unit × tokenBucketRateLimiter :=
  if tokenFirst then
    (Except.ok (), takeToken l)
  else
    (Except.error { Err := cause }, l)

end ratelimit

namespace lazyhttp

/-! ## `NewClient` and the process-global `http.DefaultClient`

```go
func NewClient(opts ...Option) *client {
    httpClient := http.DefaultClient      // go's default http client is also our default
    httpClient.Timeout = 30 * time.Second // this is our sensible default for timeouts
    c := &client{ ..., httpClient: httpClient, ... }
    for _, opt := range opts { opt(c) }
    return c
}
```
`http.DefaultClient` is a package-level pointer; `httpClient` aliases it
and the `Timeout` store mutates the pointed-to object in place.  We model
the relevant process-global state as a heap of `http.Client` records
addressed by references, with a distinguished reference held by the
`http` package's `DefaultClient` variable. -/

/-- The observable part of an `http.Client` record. -/
structure HttpClient where
  Timeout : Int
deriving DecidableEq

/-- Process-global state of the `net/http` package: a heap of client
records and the reference stored in the `http.DefaultClient` variable. -/
structure HttpGlobalState where
  heap : Nat → HttpClient
  defaultClientRef : Nat

/-- The fields of the lazyhttp `client` struct that the claim observes. -/
structure Client where
  httpClientRef : Nat
  maxRateLimiterWaitTime : Int
deriving DecidableEq

/-- `NewClient(opts...)`: write `30 * time.Second` through the
`http.DefaultClient` pointer, build the client around that same
reference, then apply the options (each an endomorphism of the client
record, as in the functional-options pattern).  Returns the constructed
client and the updated process-global state. -/
def NewClient (opts : List (Client → Client)) (st : HttpGlobalState) :
    Client × HttpGlobalState :=
  let ref := st.defaultClientRef
  let st' : HttpGlobalState :=
    { st with
      heap := fun r =>
        if r = ref then { st.heap r with Timeout := 30 * second } else st.heap r }
  let c : Client := { httpClientRef := ref, maxRateLimiterWaitTime := 60 * second }
  (opts.foldl (fun c o => o c) c, st')

end lazyhttp

open lazyhttp ratelimit

/-! ## Helper lemmas -/

theorem i64_eq_self (x : Int) (h1 : -9223372036854775808 ≤ x)
    (h2 : x < 9223372036854775808) : i64 x = x := by
  unfold i64
  omega

theorem jitterOk_zero : JitterOk (fun _ => 0) := by
  intro n
  constructor
  · exact le_refl 0
  · norm_num [millisecond]

theorem ltbStateAfter_newLtb5 (base : Int) (n : Nat) :
    ltbStateAfter (NewLimitedTriesBackoff base 5) n =
      { base := base, done := (min n 5 : Nat), retries := 5 } := by
  induction n with
  | zero => rfl
  | succ n ih =>
    rcases le_or_lt 5 n with h5 | h5
    · have e1 : min n 5 = 5 := by omega
      have e2 : min (n + 1) 5 = 5 := by omega
      rw [ltbStateAfter, ih, e1, e2, limitedTriesBackoff.Backoff]
      split
      · rfl
      · next hc => exfalso; simp only [not_lt] at hc; push_cast at hc
    · have e1 : min n 5 = n := by omega
      have e2 : min (n + 1) 5 = n + 1 := by omega
      rw [ltbStateAfter, ih, e1, e2, limitedTriesBackoff.Backoff]
      split
      · next hc => exfalso; push_cast at hc; omega
      · simp

theorem bucketStep_capacity (l : ratelimit.tokenBucketRateLimiter)
    (s : BucketStep) : (bucketStep l s).capacity = l.capacity := by
  cases s <;> rfl

theorem bucketStep_le (l : ratelimit.tokenBucketRateLimiter) (s : BucketStep)
    (h : l.bucket ≤ l.capacity) :
    (bucketStep l s).bucket ≤ (bucketStep l s).capacity := by
  cases s <;> simp [bucketStep, takeToken, refillTick] <;> omega

theorem runBucket_le (steps : List BucketStep)
    (l : ratelimit.tokenBucketRateLimiter) (h : l.bucket ≤ l.capacity) :
    (runBucket l steps).bucket ≤ (runBucket l steps).capacity ∧
      (runBucket l steps).capacity = l.capacity := by
  induction steps generalizing l with
  | nil => exact ⟨h, rfl⟩
  | cons s rest ih =>
    have h1 := bucketStep_le l s h
    have h2 := bucketStep_capacity l s
    have := ih (bucketStep l s) (by omega)
    simp only [runBucket, List.foldl_cons] at *
    exact ⟨this.1, by omega⟩

theorem retryLoop_no_ctx {β : Type} (rp : Option Response → Bool)
    (st : β → Int × Bool × β) (cd : Nat → Bool) (ex : Nat → Option Response) :
    ∀ (fuel : Nat) (bop : β) (res : Option Response) (k : Nat)
      (out : Option Response × Option RetryErr),
      retryLoop rp st cd ex fuel bop res k = some out →
      out.2 ≠ some RetryErr.ctxCancelled := by
  intro fuel
  induction fuel with
  | zero =>
    intro bop res k out h
    simp [retryLoop] at h
  | succ n ih =>
    intro bop res k out h
    simp only [retryLoop] at h
    split at h
    · split at h
      · exact ih _ _ _ _ h
      · cases h
        simp
    · cases h
      simp

/-! ## Claims -/

/-- C4 counterexample: the claim says construction "fails fast (panics)
for every base <= 0", but `NewExponentialBackoff` only checks
`b.base == 0`: with `base = -1s ≤ 0` the construction succeeds. -/
theorem c4_counterexample :
    (NewExponentialBackoff (-1 * second) (2 * second) 5).isSome = true ∧
      (-1 * second : Int) ≤ 0 := by
  constructor <;> decide

/-- C4 (amended): `NewExponentialBackoff base max retries` panics exactly
when `base = 0`, and succeeds for every `base ≠ 0` (in particular for
every `base > 0`, but also for every negative base). -/
theorem c4_amended_panic_iff (base max retries : Int) :
    NewExponentialBackoff base max retries = none ↔ base = 0 := by
  unfold NewExponentialBackoff
  split
  · simp [*]
  · simp [*]

/-- C7: for the limited-tries policy with any base and `retries = 5`,
each of the first 5 calls returns `(base, true)` and leaves the
attempts-done counter at the number of calls made so far, and the 6th
and every later call returns `(0, false)`. -/
theorem c7_limitedTries_five (base : Int) (k : Nat) :
    (k < 5 → ltbCall (NewLimitedTriesBackoff base 5) k = (base, true) ∧
      (ltbStateAfter (NewLimitedTriesBackoff base 5) (k + 1)).done = (k : Int) + 1) ∧
    (5 ≤ k → ltbCall (NewLimitedTriesBackoff base 5) k = (0, false)) := by
  constructor
  · intro hk
    have hmin : min k 5 = k := by omega
    have hmin1 : min (k + 1) 5 = k + 1 := by omega
    constructor
    · rw [ltbCall, ltbStateAfter_newLtb5 base k, hmin, limitedTriesBackoff.Backoff]
      split
      · next hc => exfalso; push_cast at hc; omega
      · rfl
    · rw [ltbStateAfter_newLtb5 base (k + 1), hmin1]
      push_cast
      ring
  · intro hk
    have hmin : min k 5 = 5 := by omega
    rw [ltbCall, ltbStateAfter_newLtb5 base k, hmin, limitedTriesBackoff.Backoff]
    split
    · rfl
    · next hc => exfalso; simp only [not_lt] at hc; push_cast at hc

/-- C7 witness: at `base = 7`, call 4 (0-indexed 3) returns `(7, true)`
and call 7 (0-indexed 6) returns `(0, false)`. -/
theorem c7_witness :
    ltbCall (NewLimitedTriesBackoff 7 5) 3 = (7, true) ∧
      ltbCall (NewLimitedTriesBackoff 7 5) 6 = (0, false) :=
  ⟨((c7_limitedTries_five 7 3).1 (by norm_num)).1,
    (c7_limitedTries_five 7 6).2 (by norm_num)⟩

/-- C8: for every `Wait(ctx)` call on the token-bucket limiter: when the
context carries no deadline the constructor-supplied default timeout is
imposed; when the (possibly defaulted) deadline or cancellation wins the
race, `Wait` returns a `NoTokenError` wrapping the cancellation cause
and leaves the bucket untouched; when a token wins, exactly one token is
removed from the bucket and the call returns without error. -/
theorem c8_wait (l : ratelimit.tokenBucketRateLimiter) (d : Option Int)
    (tf : Bool) (cause : CtxCause) :
    (effectiveDeadline l none = some l.timeout) ∧
    (tf = false →
      l.Wait d tf cause = (Except.error { Err := cause }, l)) ∧
    (tf = true → 0 < l.bucket →
      (l.Wait d tf cause).1 = Except.ok () ∧
        (l.Wait d tf cause).2.bucket + 1 = l.bucket) := by
  refine ⟨rfl, ?_, ?_⟩
  · intro htf
    simp [ratelimit.tokenBucketRateLimiter.Wait, htf]
  · intro htf hb
    simp [ratelimit.tokenBucketRateLimiter.Wait, htf, takeToken]
    omega

/-- C8 witness: on a fresh limiter of capacity 3 (constructed with a zero
timeout, hence default 30s): a token win removes exactly one of the 3
tokens, and a deadline win returns the wrapped cancellation cause. -/
theorem c8_witness :
    ((NewTokenBucketRateLimiter 3 0).Wait none true CtxCause.deadlineExceeded).1 =
        Except.ok () ∧
      ((NewTokenBucketRateLimiter 3 0).Wait none true CtxCause.deadlineExceeded).2.bucket + 1 =
        (NewTokenBucketRateLimiter 3 0).bucket ∧
      (NewTokenBucketRateLimiter 3 0).Wait none false CtxCause.cancelled =
        (Except.error { Err := CtxCause.cancelled }, NewTokenBucketRateLimiter 3 0) := by
  refine ⟨?_, ?_, ?_⟩
  · exact ((c8_wait (NewTokenBucketRateLimiter 3 0) none true
      CtxCause.deadlineExceeded).2.2 rfl (by decide)).1
  · exact ((c8_wait (NewTokenBucketRateLimiter 3 0) none true
      CtxCause.deadlineExceeded).2.2 rfl (by decide)).2
  · exact (c8_wait (NewTokenBucketRateLimiter 3 0) none false
      CtxCause.cancelled).2.1 rfl

/-- C9: for any capacity > 0, the bucket is pre-filled to exactly
`capacity` at construction; after any sequence of acquire/refill events
the token count never exceeds the capacity; a refill tick adds exactly
`capacity - available` tokens, restoring `available = capacity`
whenever `available ≤ capacity`; and a refill on a full bucket is the
identity. -/
theorem c9_bucket_invariant (cap : Nat) (t : Int) (steps : List BucketStep)
    (hcap : 0 < cap) :
    (NewTokenBucketRateLimiter cap t).bucket = cap ∧
    (runBucket (NewTokenBucketRateLimiter cap t) steps).bucket ≤ cap ∧
    (∀ l : ratelimit.tokenBucketRateLimiter,
      (refillTick l).bucket = l.bucket + (l.capacity - l.bucket)) ∧
    (∀ l : ratelimit.tokenBucketRateLimiter, l.bucket ≤ l.capacity →
      (refillTick l).bucket = l.capacity) ∧
    (∀ l : ratelimit.tokenBucketRateLimiter, l.bucket = l.capacity →
      refillTick l = l) := by
  refine ⟨rfl, ?_, fun l => rfl, ?_, ?_⟩
  · have := runBucket_le steps (NewTokenBucketRateLimiter cap t) (le_refl cap)
    have hc : (NewTokenBucketRateLimiter cap t).capacity = cap := rfl
    omega
  · intro l h
    simp [refillTick]
    omega
  · intro l h
    unfold refillTick
    rw [show l.bucket + (l.capacity - l.bucket) = l.bucket by omega]

/-- C9 witness: capacity 3, consuming two tokens then refilling twice
never exceeds 3 tokens. -/
theorem c9_witness :
    (runBucket (NewTokenBucketRateLimiter 3 0)
      [BucketStep.acquire, BucketStep.acquire, BucketStep.refill,
        BucketStep.refill]).bucket ≤ 3 :=
  (c9_bucket_invariant 3 0
    [BucketStep.acquire, BucketStep.acquire, BucketStep.refill,
      BucketStep.refill] (by decide)).2.1

/-- C10: every `NewClient` call writes `Timeout = 30s` through the
process-global `http.DefaultClient` pointer (whatever options are
passed, since the write precedes option application), and — absent an
overriding option — the constructed client's transport is that same
shared global instance (the same heap reference). -/
theorem c10_newClient_mutates_default (opts : List (Client → Client))
    (st : HttpGlobalState) :
    ((NewClient opts st).2.heap st.defaultClientRef).Timeout = 30 * second ∧
      (NewClient [] st).1.httpClientRef = st.defaultClientRef := by
  constructor
  · simp [NewClient]
  · rfl

/-- C1 counterexample: the claim says that on backoff exhaustion `Do`
"discards the last response".  Concrete run of the retry section: the
retry predicate always wants a retry and the (default) no-op backoff
reports immediate exhaustion; `Do`'s retry section returns the
exhaustion error TOGETHER with the last response — the response is not
discarded (the result's response component is not `nil`). -/
theorem c1_counterexample :
    retryLoop (fun _ => true) noopBackoff (fun _ => false) (fun _ => none) 3
        (show noopBackoffFunc from ()) (some { statusCode := 503 }) 0
      = some (some { statusCode := 503 }, some RetryErr.exhausted) ∧
    (some { statusCode := 503 } : Option Response) ≠ none := by
  constructor
  · rfl
  · simp

/-- C1 (amended): whenever the retry predicate approves a retry of the
current response and the backoff policy reports exhaustion, `Do` returns
a non-nil exhaustion error — so the last response is not returned as
plain success — but the last response is returned alongside that error,
not discarded. -/
theorem c1_exhaustion_keeps_response {β : Type} (rp : Option Response → Bool)
    (st : β → Int × Bool × β) (ctxDone : Nat → Bool)
    (exec : Nat → Option Response) (fuel : Nat) (bop : β)
    (res : Option Response) (k : Nat)
    (hrp : rp res = true) (hst : (st bop).2.1 = false) :
    retryLoop rp st ctxDone exec (fuel + 1) bop res k
      = some (res, some RetryErr.exhausted) := by
  simp [retryLoop, hrp, hst]

/-- C1 witness: the amended theorem at a concrete input. -/
theorem c1_witness :
    retryLoop (fun _ => true) noopBackoff (fun _ => false) (fun _ => none) 5
        (show noopBackoffFunc from ()) (some { statusCode := 500 }) 0
      = some (some { statusCode := 500 }, some RetryErr.exhausted) :=
  c1_exhaustion_keeps_response (fun _ => true) noopBackoff (fun _ => false)
    (fun _ => none) 4 (show noopBackoffFunc from ())
    (some { statusCode := 500 }) 0 rfl rfl

/-- C3: the claim (and the spec) require that when the governing context
completes during the retry wait, the retry sequence is abandoned and `Do`
reports a context-cancellation error distinct from exhaustion.  The code
builds the `"request context done"` error inside the wait closure, but
the loop assigns it to a body-local `err` that is never read again, so
(first conjunct) no terminating run of the retry loop can ever surface
the context-cancellation error, and (second conjunct) on the concrete
failing input — retry-on-503 policy, limited-tries backoff with
`retries = 2`, context already done at every wait — the loop keeps
consuming backoff attempts and finally reports exhaustion instead of
cancellation. -/
theorem c3_ctx_cancellation_swallowed :
    (∀ (β : Type) (rp : Option Response → Bool) (st : β → Int × Bool × β)
        (cd : Nat → Bool) (ex : Nat → Option Response) (fuel : Nat) (bop : β)
        (res : Option Response) (k : Nat)
        (out : Option Response × Option RetryErr),
      retryLoop rp st cd ex fuel bop res k = some out →
      out.2 ≠ some RetryErr.ctxCancelled) ∧
    retryLoop rp503 limitedTriesBackoff.Backoff (fun _ => true) (fun _ => none)
        10 (NewLimitedTriesBackoff (250 * millisecond) 2)
        (some { statusCode := 503 }) 0
      = some (some { statusCode := 503 }, some RetryErr.exhausted) := by
  constructor
  · intro β rp st cd ex fuel bop res k out h
    exact retryLoop_no_ctx rp st cd ex fuel bop res k out h
  · decide

/-- C3 witness: the universal conjunct applied to the concrete failing
run (context done at every wait, limited-tries backoff of 2). -/
theorem c3_witness :
    ((some { statusCode := 503 } : Option Response),
        (some RetryErr.exhausted : Option RetryErr)).2
      ≠ some RetryErr.ctxCancelled :=
  c3_ctx_cancellation_swallowed.1 lazyhttp.limitedTriesBackoff rp503
    limitedTriesBackoff.Backoff (fun _ => true) (fun _ => none) 10
    (NewLimitedTriesBackoff (250 * millisecond) 2)
    (some { statusCode := 503 }) 0
    (some { statusCode := 503 }, some RetryErr.exhausted) (by decide)

theorem rawWait_eq_rawPow (b : exponentialBackoff) (hd0 : 0 ≤ b.done)
    (hbase : 0 < b.base)
    (hbound : b.base * 2 ^ b.done.toNat + 500 * millisecond ≤ 9223372036854775807) :
    rawWait b = rawPow b := by
  unfold rawWait rawPow
  by_cases hd : b.done = 0
  · rw [if_pos hd, if_pos hd]
  · rw [if_neg hd, if_neg hd]
    have hms : millisecond = 1000000 := rfl
    have hpow : (2 : Int) * 2 ^ (b.done - 1).toNat = 2 ^ b.done.toNat := by
      have h : (b.done - 1).toNat + 1 = b.done.toNat := by omega
      rw [← h, pow_succ]
      ring
    rw [hpow]
    have hPpos : (0 : Int) < 2 ^ b.done.toNat := pow_pos (by norm_num) _
    have hPle : (2 : Int) ^ b.done.toNat ≤ b.base * 2 ^ b.done.toNat :=
      le_mul_of_one_le_left (le_of_lt hPpos) (by omega)
    have hmulpos : 0 < b.base * 2 ^ b.done.toNat :=
      mul_pos hbase hPpos
    rw [i64_eq_self ((2 : Int) ^ b.done.toNat) (by omega) (by omega),
      i64_eq_self (b.base * 2 ^ b.done.toNat) (by omega) (by omega)]

theorem expBackoff_current_eq (j : Nat → Int) (b : exponentialBackoff)
    (hj : JitterOk j) (hd0 : 0 ≤ b.done) (hbase : 0 < b.base)
    (hbound : b.base * 2 ^ b.done.toNat + 500 * millisecond ≤ 9223372036854775807) :
    (if b.done = 0 then i64 (b.base + j b.jcalls)
      else i64 (i64 (b.base * i64 (2 * 2 ^ (b.done - 1).toNat)) + j b.jcalls))
      = rawPow b + j b.jcalls := by
  have hms : millisecond = 1000000 := rfl
  have h1 := hj b.jcalls
  unfold rawPow
  by_cases hd : b.done = 0
  · rw [if_pos hd, if_pos hd]
    have hz : b.done.toNat = 0 := by omega
    rw [hz] at hbound
    norm_num at hbound
    exact i64_eq_self _ (by omega) (by omega)
  · rw [if_neg hd, if_neg hd]
    have hpow : (2 : Int) * 2 ^ (b.done - 1).toNat = 2 ^ b.done.toNat := by
      have h : (b.done - 1).toNat + 1 = b.done.toNat := by omega
      rw [← h, pow_succ]
      ring
    rw [hpow]
    have hPpos : (0 : Int) < 2 ^ b.done.toNat := pow_pos (by norm_num) _
    have hPle : (2 : Int) ^ b.done.toNat ≤ b.base * 2 ^ b.done.toNat :=
      le_mul_of_one_le_left (le_of_lt hPpos) (by omega)
    have hmulpos : 0 < b.base * 2 ^ b.done.toNat :=
      mul_pos hbase hPpos
    rw [i64_eq_self ((2 : Int) ^ b.done.toNat) (by omega) (by omega),
      i64_eq_self (b.base * 2 ^ b.done.toNat) (by omega) (by omega),
      i64_eq_self (b.base * 2 ^ b.done.toNat + j b.jcalls) (by omega) (by omega)]

/-- One uncapped `Backoff()` call: before exhaustion, with positive base,
within `int64` range and with `raw + jitter` below the cap, the call
returns the raw wait plus the jitter draw, consumes one jitter draw and
increments `done`. -/
theorem expBackoff_step_uncapped (j : Nat → Int) (b : exponentialBackoff)
    (hj : JitterOk j) (hd0 : 0 ≤ b.done) (hret : b.done + 1 ≤ b.retries)
    (hbase : 0 < b.base)
    (hbound : b.base * 2 ^ b.done.toNat + 500 * millisecond ≤ 9223372036854775807)
    (hcap : rawPow b + j b.jcalls < b.max) :
    exponentialBackoff.Backoff j b =
      (rawPow b + j b.jcalls, true,
        { b with done := b.done + 1, jcalls := b.jcalls + 1 }) := by
  simp only [exponentialBackoff.Backoff]
  rw [if_neg (show ¬(b.done + 1 > b.retries) by omega)]
  rw [expBackoff_current_eq j b hj hd0 hbase hbound]
  rw [if_neg (not_le.mpr hcap)]

/-- One capped `Backoff()` call: before exhaustion, with positive base,
within `int64` range, when the raw wait reaches or exceeds `max` the call
returns `max` plus a fresh jitter draw, consumes two jitter draws and
still increments `done`. -/
theorem expBackoff_step_capped (j : Nat → Int) (b : exponentialBackoff)
    (hj : JitterOk j) (hd0 : 0 ≤ b.done) (hret : b.done + 1 ≤ b.retries)
    (hbase : 0 < b.base)
    (hbound : b.base * 2 ^ b.done.toNat + 500 * millisecond ≤ 9223372036854775807)
    (hmaxlo : -9223372036854775808 ≤ b.max)
    (hmaxhi : b.max + 500 * millisecond ≤ 9223372036854775807)
    (hge : b.max ≤ rawPow b) :
    exponentialBackoff.Backoff j b =
      (b.max + j (b.jcalls + 1), true,
        { b with done := b.done + 1, jcalls := b.jcalls + 2 }) := by
  have hms : millisecond = 1000000 := rfl
  have h1 := hj b.jcalls
  have h2 := hj (b.jcalls + 1)
  simp only [exponentialBackoff.Backoff]
  rw [if_neg (show ¬(b.done + 1 > b.retries) by omega)]
  rw [expBackoff_current_eq j b hj hd0 hbase hbound]
  rw [if_pos (show rawPow b + j b.jcalls ≥ b.max by omega)]
  rw [i64_eq_self _ (by omega) (by omega)]

theorem pow2_le_16 (k : Nat) (hk : k ≤ 4) : (2 : Int) ^ k ≤ 16 := by
  interval_cases k <;> norm_num

/-- One call of the policy `NewExponentialBackoff(5s, 2s, 5)` before
exhaustion: the raw wait (5s·2^done) always reaches the 2s cap, so the
call returns `max` plus a fresh jitter draw. -/
theorem b52_step (j : Nat → Int) (hj : JitterOk j) (k m : Nat) (hk : k < 5) :
    exponentialBackoff.Backoff j
        { base := 5 * second, done := (k : Int), max := 2 * second,
          retries := 5, jcalls := m }
      = (2 * second + j (m + 1), true,
         { base := 5 * second, done := (k : Int) + 1, max := 2 * second,
           retries := 5, jcalls := m + 2 }) := by
  have h16 := pow2_le_16 k (by omega)
  have hp : (0 : Int) < 2 ^ k := pow_pos (by norm_num) k
  have hdt : ((k : Int)).toNat = k := by omega
  refine expBackoff_step_capped j _ hj ?_ ?_ ?_ ?_ ?_ ?_ ?_
  · show (0 : Int) ≤ (k : Int)
    omega
  · show ((k : Int)) + 1 ≤ 5
    omega
  · norm_num [second]
  · show 5 * second * 2 ^ ((k : Int)).toNat + 500 * millisecond ≤ 9223372036854775807
    rw [hdt]
    norm_num [second, millisecond]
    omega
  · norm_num [second]
  · norm_num [second, millisecond]
  · show 2 * second ≤ rawPow _
    unfold rawPow
    split
    · norm_num [second]
    · have h1le : (1 : Int) ≤ 2 ^ k := by omega
      calc (2 : Int) * second ≤ 5 * second := by norm_num [second]
        _ ≤ 5 * second * 2 ^ ((k : Int)).toNat := by
            rw [hdt]
            exact le_mul_of_one_le_right (by norm_num [second]) h1le

/-- One call of the policy `NewExponentialBackoff(5s, 2h, 5)` before
exhaustion: the raw wait stays below the 2h cap, so the call returns the
raw wait plus one jitter draw. -/
theorem b6_step (j : Nat → Int) (hj : JitterOk j) (k m : Nat) (hk : k < 5) :
    exponentialBackoff.Backoff j
        { base := 5 * second, done := (k : Int), max := 2 * hour,
          retries := 5, jcalls := m }
      = (rawPow { base := 5 * second, done := (k : Int), max := 2 * hour,
                  retries := 5, jcalls := m } + j m, true,
         { base := 5 * second, done := (k : Int) + 1, max := 2 * hour,
           retries := 5, jcalls := m + 1 }) := by
  have h16 := pow2_le_16 k (by omega)
  have hp : (0 : Int) < 2 ^ k := pow_pos (by norm_num) k
  have hdt : ((k : Int)).toNat = k := by omega
  have hjm := hj m
  have hms : millisecond = 1000000 := rfl
  have hh : hour = 3600000000000 := rfl
  refine expBackoff_step_uncapped j _ hj ?_ ?_ ?_ ?_ ?_
  · show (0 : Int) ≤ (k : Int)
    omega
  · show ((k : Int)) + 1 ≤ 5
    omega
  · norm_num [second]
  · show 5 * second * 2 ^ ((k : Int)).toNat + 500 * millisecond ≤ 9223372036854775807
    rw [hdt]
    norm_num [second, millisecond]
    omega
  · show rawPow _ + j m < 2 * hour
    simp only [rawPow]
    split
    · norm_num [second, hour]
      omega
    · rw [hdt]
      have hb : 5 * second * 2 ^ k ≤ 80000000000 := by
        calc 5 * second * 2 ^ k ≤ 5 * second * 16 :=
              mul_le_mul_of_nonneg_left h16 (by norm_num [second])
          _ = 80000000000 := by norm_num [second]
      omega

/-- State of `NewExponentialBackoff(5s, 2s, 5)` after `k ≤ 5` calls:
`done = k` and two jitter draws consumed per call. -/
theorem expStateAfter_b52 (j : Nat → Int) (hj : JitterOk j) (k : Nat) (hk : k ≤ 5) :
    expStateAfter j
        { base := 5 * second, done := 0, max := 2 * second, retries := 5,
          jcalls := 0 } k
      = { base := 5 * second, done := (k : Int), max := 2 * second,
          retries := 5, jcalls := 2 * k } := by
  induction k with
  | zero => rfl
  | succ n ih =>
    rw [expStateAfter, ih (by omega),
      show (((n + 1 : Nat)) : Int) = ((n : Int)) + 1 by push_cast; ring,
      show 2 * (n + 1) = 2 * n + 2 by ring,
      b52_step j hj n (2 * n) (by omega)]

/-- State of `NewExponentialBackoff(5s, 2h, 5)` after `k ≤ 5` calls:
`done = k` and one jitter draw consumed per call. -/
theorem expStateAfter_b6 (j : Nat → Int) (hj : JitterOk j) (k : Nat) (hk : k ≤ 5) :
    expStateAfter j
        { base := 5 * second, done := 0, max := 2 * hour, retries := 5,
          jcalls := 0 } k
      = { base := 5 * second, done := (k : Int), max := 2 * hour,
          retries := 5, jcalls := k } := by
  induction k with
  | zero => rfl
  | succ n ih =>
    rw [expStateAfter, ih (by omega),
      show (((n + 1 : Nat)) : Int) = ((n : Int)) + 1 by push_cast; ring,
      b6_step j hj n n (by omega)]

/-- C2 counterexample: the claim predicts that call `i = 1` (0-indexed) of
a fresh exponential policy returns `base * 2^(1-1) + jitter` with the
jitter below 500ms, i.e. a value strictly below `base + 500ms`.  For
`base = 1s`, `max = 2h`, `retries = 5` and the all-zero jitter stream,
call 1 actually returns `2 * second` (the code computes `base * 2^i`,
because `2<<(done-1) = 2^done`), and `base * 2^(1-1) + 500ms ≤ 2s`
shows every value the claim allows falls short of the actual result. -/
theorem c2_counterexample :
    NewExponentialBackoff second (2 * hour) 5
        = some { base := second, done := 0, max := 2 * hour, retries := 5,
                 jcalls := 0 } ∧
    expCall (fun _ => 0)
        { base := second, done := 0, max := 2 * hour, retries := 5,
          jcalls := 0 } 1
      = (2 * second, true) ∧
    second * 2 ^ (1 - 1) + 500 * millisecond ≤ 2 * second := by
  refine ⟨by decide, by decide, by decide⟩

/-- C2 (amended): for the exponential policy with base > 0, on call `i`
(0-indexed, `done = i`, before exhaustion, within `int64` range, and
before the max cap applies) the returned duration equals `base` plus the
jitter draw when `i = 0`, and `base * 2^i` (not `base * 2^(i-1)`) plus
the jitter draw when `i ≥ 1`, with `shouldRetry = true`. -/
theorem c2_amended_exponent (j : Nat → Int) (b : exponentialBackoff) (i : Nat)
    (hj : JitterOk j) (hi : b.done = (i : Int)) (hret : b.done + 1 ≤ b.retries)
    (hbase : 0 < b.base)
    (hbound : b.base * 2 ^ i + 500 * millisecond ≤ 9223372036854775807)
    (hcap : (if i = 0 then b.base else b.base * 2 ^ i) + j b.jcalls < b.max) :
    (exponentialBackoff.Backoff j b).1
        = (if i = 0 then b.base else b.base * 2 ^ i) + j b.jcalls ∧
      (exponentialBackoff.Backoff j b).2.1 = true := by
  have hdt : b.done.toNat = i := by omega
  have hti : (((i : Nat)) : Int).toNat = i := by omega
  have hrp : rawPow b = (if i = 0 then b.base else b.base * 2 ^ i) := by
    simp only [rawPow, hi, Nat.cast_eq_zero, hti]
  rw [expBackoff_step_uncapped j b hj (by omega) hret hbase
    (by rw [hdt]; exact hbound) (by rw [hrp]; exact hcap)]
  exact ⟨by rw [hrp], rfl⟩

/-- C2 witness: the amended exponent at `i = 1`, base 1s, zero jitter:
the call returns `base * 2^1`. -/
theorem c2_witness :
    (exponentialBackoff.Backoff (fun _ => 0)
        { base := second, done := 1, max := 2 * hour, retries := 5,
          jcalls := 1 }).1
      = (if (1 : Nat) = 0 then second else second * 2 ^ (1 : Nat)) + 0 :=
  (c2_amended_exponent (fun _ => 0)
    { base := second, done := 1, max := 2 * hour, retries := 5, jcalls := 1 } 1
    jitterOk_zero (by decide) (by decide) (by decide) (by decide) (by decide)).1

/-- C5: (i) on any `Backoff()` call before exhaustion whose raw
(pre-jitter) wait reaches or exceeds `max` (with base > 0 and all values
within `int64` range), the call returns `max` plus a fresh jitter draw,
reports `true`, and still increments the attempt count; (ii) the policy
`NewExponentialBackoff(5s, 2s, 5)` is `expB52`, and (iii) with any jitter
stream in `[0, 500ms)` every one of its `retries = 5` calls returns a
duration at most `max + 500ms`. -/
theorem c5_cap_behavior :
    (∀ (j : Nat → Int) (b : exponentialBackoff), JitterOk j → 0 ≤ b.done →
        b.done + 1 ≤ b.retries → 0 < b.base →
        b.base * 2 ^ b.done.toNat + 500 * millisecond ≤ 9223372036854775807 →
        -9223372036854775808 ≤ b.max →
        b.max + 500 * millisecond ≤ 9223372036854775807 →
        b.max ≤ rawWait b →
        (exponentialBackoff.Backoff j b).1 = b.max + j (b.jcalls + 1) ∧
          (exponentialBackoff.Backoff j b).2.1 = true ∧
          (exponentialBackoff.Backoff j b).2.2.done = b.done + 1) ∧
    NewExponentialBackoff (5 * second) (2 * second) 5 = some expB52 ∧
    (∀ (j : Nat → Int), JitterOk j → ∀ k, k < 5 →
      (expCall j expB52 k).1 ≤ 2 * second + 500 * millisecond) := by
  refine ⟨?_, by decide, ?_⟩
  · intro j b hj hd0 hret hbase hbound hmaxlo hmaxhi hge
    rw [rawWait_eq_rawPow b hd0 hbase hbound] at hge
    rw [expBackoff_step_capped j b hj hd0 hret hbase hbound hmaxlo hmaxhi hge]
    exact ⟨rfl, rfl, rfl⟩
  · intro j hj k hk
    have hs : second = 1000000000 := rfl
    have hms : millisecond = 1000000 := rfl
    have hjk := hj (2 * k + 1)
    simp only [expCall, expB52]
    rw [expStateAfter_b52 j hj k (by omega), b52_step j hj k (2 * k) hk]
    omega

/-- C5 witness: the concrete bound at call 4 (0-indexed 3) of
`NewExponentialBackoff(5s, 2s, 5)` with the zero jitter stream. -/
theorem c5_witness :
    (expCall (fun _ => 0) expB52 3).1 ≤ 2 * second + 500 * millisecond :=
  c5_cap_behavior.2.2 (fun _ => 0) jitterOk_zero 3 (by norm_num)

/-- C6: the policy `NewExponentialBackoff(5s, 2h, 5)` is `expB6`; for any
jitter stream in `[0, 500ms)` its five allowed calls return
`5s, 10s, 20s, 40s, 80s` each plus the call's jitter draw — so ignoring
the jitter the successive durations are strictly increasing — and the
6th call returns `(0, false)`. -/
theorem c6_exponential_growth (j : Nat → Int) (hj : JitterOk j) :
    NewExponentialBackoff (5 * second) (2 * hour) 5 = some expB6 ∧
    (expCall j expB6 0).1 = 5 * second + j 0 ∧
    (expCall j expB6 1).1 = 10 * second + j 1 ∧
    (expCall j expB6 2).1 = 20 * second + j 2 ∧
    (expCall j expB6 3).1 = 40 * second + j 3 ∧
    (expCall j expB6 4).1 = 80 * second + j 4 ∧
    ((5 : Int) * second < 10 * second ∧ (10 : Int) * second < 20 * second ∧
      (20 : Int) * second < 40 * second ∧ (40 : Int) * second < 80 * second) ∧
    expCall j expB6 5 = (0, false) := by
  refine ⟨by decide, ?_, ?_, ?_, ?_, ?_, by norm_num [second], ?_⟩
  · simp only [expCall, expB6]
    rw [expStateAfter_b6 j hj 0 (by norm_num), b6_step j hj 0 0 (by norm_num)]
    norm_num [rawPow]
  · simp only [expCall, expB6]
    rw [expStateAfter_b6 j hj 1 (by norm_num), b6_step j hj 1 1 (by norm_num)]
    norm_num [rawPow, second]
  · simp only [expCall, expB6]
    rw [expStateAfter_b6 j hj 2 (by norm_num), b6_step j hj 2 2 (by norm_num)]
    norm_num [rawPow, second]
    decide
  · simp only [expCall, expB6]
    rw [expStateAfter_b6 j hj 3 (by norm_num), b6_step j hj 3 3 (by norm_num)]
    norm_num [rawPow, second]
    decide
  · simp only [expCall, expB6]
    rw [expStateAfter_b6 j hj 4 (by norm_num), b6_step j hj 4 4 (by norm_num)]
    norm_num [rawPow, second]
    decide
  · simp only [expCall, expB6]
    rw [expStateAfter_b6 j hj 5 (by norm_num)]
    norm_num [exponentialBackoff.Backoff]

/-- C6 witness: the exhaustion call with the zero jitter stream. -/
theorem c6_witness : expCall (fun _ => 0) expB6 5 = (0, false) :=
  (c6_exponential_growth (fun _ => 0) jitterOk_zero).2.2.2.2.2.2.2
